import Mathlib

/-!
Verification of the mini-pl front end and tree-walking evaluator.

This file gives a shallow embedding of the three components of the
pipeline (scanner, recursive-descent parser, tree-walking interpreter)
and proves properties of them.

Modelling conventions:
* Rust panics are modelled as `Except.error` values; distinct panic
  sources are kept distinct (`panicMsg` for explicit `panic!`,
  `unwrapNone` for `Option::unwrap` on `None`, `oob` for a
  slice-index-out-of-bounds panic, `unimpl` for `unimplemented!`).
* Loops and recursion are driven by an explicit fuel parameter
  (structural recursion on `Nat`); running out of fuel is the distinct
  error `fuelOut`, which never occurs for the concrete programs
  evaluated below and is one more `error` case in the general theorems.
* Machine integers (`i32`) are modelled as `Int`; division panics on a
  zero divisor exactly as the host `/` does, and `i32::from_str` is
  modelled with its range check (`parseI32`).
* Source text is modelled as its character list (the sources involved
  are ASCII, where `text.as_bytes()[i] as char` is the i-th character).
* `String::to_lowercase` is modelled by `to_lowercase` below
  (char-by-char lowercasing, which agrees with Rust on ASCII names).
* Standard input is a list of lines with the trailing newline already
  stripped (mirroring the `read_line` + pop-`'\n'` sequence); standard
  output is the list of printed lines.
-/
/-- Char-by-char lowercasing of a string; models Rust `to_lowercase`
(identical on ASCII input, which is all the scanner's identifiers are). -/
def to_lowercase (s : String) : String := ⟨s.data.map Char.toLower⟩

/-! ## Token and value model (src/tokens.rs) -/
/-- `TokenType` from src/tokens.rs. -/
inductive TokenType where
  | Str
  | Bool
  | Var
  | Integer
  | Plus
  | Minus
  | Mul
  | Div
  | RightParen
  | LeftParen
  | ID
  | Assign
  | Semi
  | Colon
  | EOF
  | Print
  | Read
  | StringLiteral
  | For
  | End
  | If
  | Else
  | Do
  | In
  | To
  | Equal
  | LessThan
  | And
  | Not
  deriving DecidableEq, Repr

/-- `Value` from src/tokens.rs (`i32` modelled as `Int`). -/
inductive Value where
  | Boolean (b : Bool)
  | Number (n : Int)
  | Char (c : Char)
  | String (s : String)
  | None
  deriving DecidableEq, Repr

/-- The `Display` implementation for `Value` in src/tokens.rs. -/
def value_display (v : Value) : String :=
  match v with
  | .Boolean b => toString b
  | .Number n => toString n
  | .Char c => String.singleton c
  | .String s => s
  | .None => ""

/-- `Token` from src/tokens.rs. -/
structure Token where
  type_ : TokenType
  value : Value
  deriving DecidableEq, Repr

/-! ## Scanner (src/scanner.rs) -/
/-- The `RESERVED_KEYWORDS` table of src/scanner.rs. -/
def RESERVED_KEYWORDS (s : String) : Option TokenType :=
  match s with
  | "bool" => some .Bool
  | "var" => some .Var
  | "int" => some .Integer
  | "string" => some .Str
  | "print" => some .Print
  | "read" => some .Read
  | "if" => some .If
  | "else" => some .Else
  | "do" => some .Do
  | "for" => some .For
  | "end" => some .End
  | "in" => some .In
  | _ => none

/-- Errors a scanning step can end in.  `lexical` is the explicit
`panic!("Lexical error, invalid token")`, `oob` an out-of-bounds slice
index panic, `intParse` the `.parse().unwrap()` panic in `integer`,
`fuelOut` the fuel artifact of the embedding. -/
inductive ScanErr where
  | lexical
  | oob
  | intParse
  | fuelOut
  deriving DecidableEq, Repr

/-- Scanner state, from src/scanner.rs (`text` kept as its character list). -/
structure Scanner where
  text : List Char
  pos : Nat
  current_char : Option Char
  deriving DecidableEq, Repr

/-- `Scanner::new`: unconditionally indexes `text.as_bytes()[0]`, which
panics (out of bounds) on empty input. -/
def Scanner.new (text : String) : Except ScanErr Scanner :=
  match text.data.get? 0 with
  | some c => .ok { text := text.data, pos := 0, current_char := some c }
  | none => .error .oob

/-- `Scanner::advance`. -/
def Scanner.advance (s : Scanner) : Scanner :=
  let pos := s.pos + 1
  if pos > s.text.length - 1 then
    { s with pos := pos, current_char := none }
  else
    { s with pos := pos, current_char := s.text.get? pos }

/-- `Scanner::peek`: guards with `pos > len` but indexes `pos + 1`, so the
index is out of bounds whenever `len - 1 ≤ pos ≤ len`. -/
def Scanner.peek (s : Scanner) : Except ScanErr (Option Char) :=
  if s.pos > s.text.length then
    .ok none
  else
    match s.text.get? (s.pos + 1) with
    | some c => .ok (some c)
    | none => .error .oob

/-- `Scanner::skip_whitespace`. -/
def skip_whitespace : Nat → Scanner → Except ScanErr Scanner
  | 0, _ => .error .fuelOut
  | n+1, s =>
    match s.current_char with
    | some c => if c.isWhitespace then skip_whitespace n s.advance else .ok s
    | none => .ok s

/-- The line-comment loop inside `Scanner::skip_comment`. -/
def skip_line_comment : Nat → Scanner → Except ScanErr Scanner
  | 0, _ => .error .fuelOut
  | n+1, s =>
    match s.current_char with
    | some ch => if ch = '\n' then .ok s else skip_line_comment n s.advance
    | none => .ok s

/-- The block-comment loop inside `Scanner::skip_comment`. -/
def skip_block_comment : Nat → Scanner → Except ScanErr Scanner
  | 0, _ => .error .fuelOut
  | n+1, s =>
    match s.current_char with
    | some ch =>
      if ch = '*' then
        match s.peek with
        | .error e => .error e
        | .ok (some '/') => .ok s.advance.advance
        | .ok _ => skip_block_comment n s.advance
      else skip_block_comment n s.advance
    | none => .ok s

/-- `Scanner::skip_comment`. -/
def skip_comment (n : Nat) (s : Scanner) : Except ScanErr Scanner :=
  let s := s.advance
  match s.current_char with
  | some '/' => skip_line_comment n s.advance
  | some '*' => skip_block_comment n s.advance
  | some _ => .ok s
  | none => .ok s

/-- The digit-collecting loop of `Scanner::integer`. -/
def integer_digits : Nat → Scanner → List Char → Except ScanErr (List Char × Scanner)
  | 0, _, _ => .error .fuelOut
  | n+1, s, acc =>
    match s.current_char with
    | some c => if c.isDigit then integer_digits n s.advance (acc ++ [c]) else .ok (acc, s)
    | none => .ok (acc, s)

/-- Numeric value of a digit list. -/
def digits_val (l : List Char) : Nat :=
  l.foldl (fun acc c => acc * 10 + (c.toNat - 48)) 0

/-- `Scanner::integer`: collects the digit run and `parse().unwrap()`s it;
the parse (and hence the unwrap) fails exactly when the value overflows
`i32`. -/
def Scanner.integer (n : Nat) (s : Scanner) : Except ScanErr (Int × Scanner) := do
  let (ds, s') ← integer_digits n s []
  let v := digits_val ds
  if v > 2147483647 then .error .intParse else .ok ((v : Int), s')

/-- `Scanner::string_literal`. -/
def string_literal : Nat → Scanner → List Char → Except ScanErr (Token × Scanner)
  | 0, _, _ => .error .fuelOut
  | n+1, s, acc =>
    match s.current_char with
    | some c =>
      if c = '\n' then .error .lexical
      else if c = ';' then .error .lexical
      else if c = '\\' then
        match s.advance.peek with
        | .error e => .error e
        | .ok (some ch) => string_literal n s.advance.advance (acc ++ [ch])
        | .ok none => string_literal n s.advance.advance acc
      else if c = '\"' then
        .ok (Token.mk .StringLiteral (.String ⟨acc⟩), s.advance)
      else
        string_literal n s.advance (acc ++ [c])
    | none => .ok (Token.mk .EOF .None, s)

/-- The identifier-collecting loop of `Scanner::id`. -/
def id_chars : Nat → Scanner → List Char → Except ScanErr (List Char × Scanner)
  | 0, _, _ => .error .fuelOut
  | n+1, s, acc =>
    match s.current_char with
    | some c =>
      if c.isAlphanum || c = '_' then id_chars n s.advance (acc ++ [c]) else .ok (acc, s)
    | none => .ok (acc, s)

/-- `Scanner::id`. -/
def Scanner.id (n : Nat) (s : Scanner) : Except ScanErr (Token × Scanner) := do
  let (cs, s') ← id_chars n s []
  let result : String := ⟨cs⟩
  match RESERVED_KEYWORDS result with
  | some t => .ok (Token.mk t (.String result), s')
  | none => .ok (Token.mk .ID (.String result), s')

/-- `Scanner::get_next_token`. -/
def get_next_token : Nat → Scanner → Except ScanErr (Token × Scanner)
  | 0, _ => .error .fuelOut
  | n+1, s =>
    match s.current_char with
    | none => .ok (Token.mk .EOF .None, s)
    | some c =>
      if c.isWhitespace then do
        let s' ← skip_whitespace (s.text.length + 2) s
        get_next_token n s'
      else if c.isDigit then do
        let (v, s') ← s.integer (s.text.length + 2)
        .ok (Token.mk .Integer (.Number v), s')
      else if c = '!' then .ok (Token.mk .Not (.Char c), s.advance)
      else if c = '&' then .ok (Token.mk .And (.Char c), s.advance)
      else if c = '=' then .ok (Token.mk .Equal (.Char c), s.advance)
      else if c = '<' then .ok (Token.mk .LessThan (.Char c), s.advance)
      else if c = '+' then .ok (Token.mk .Plus (.Char c), s.advance)
      else if c = '-' then .ok (Token.mk .Minus (.Char c), s.advance)
      else if c = '*' then .ok (Token.mk .Mul (.Char c), s.advance)
      else if c = '/' then
        match s.peek with
        | .error e => .error e
        | .ok (some '/') => do
          let s' ← skip_comment (s.text.length + 2) s
          get_next_token n s'
        | .ok (some '*') => do
          let s' ← skip_comment (s.text.length + 2) s
          get_next_token n s'
        | .ok _ => .ok (Token.mk .Div (.Char c), s.advance)
      else if c = '(' then .ok (Token.mk .LeftParen (.Char c), s.advance)
      else if c = ')' then .ok (Token.mk .RightParen (.Char c), s.advance)
      else if c = ':' then
        match s.peek with
        | .error e => .error e
        | .ok (some '=') => .ok (Token.mk .Assign (.String ":="), s.advance.advance)
        | .ok _ => .ok (Token.mk .Colon (.Char c), s.advance)
      else if c = ';' then .ok (Token.mk .Semi (.Char c), s.advance)
      else if c = '.' then
        match s.peek with
        | .error e => .error e
        | .ok (some '.') => .ok (Token.mk .To (.String ".."), s.advance.advance)
        | .ok _ => .error .lexical
      else if c = '\"' then do
        let (t, s') ← string_literal (s.text.length + 2) s.advance []
        if t.type_ = .StringLiteral then .ok (t, s') else .error .lexical
      else if c.isAlphanum || c = '_' then s.id (s.text.length + 2)
      else .error .lexical

/-- One token pull with self-supplied fuel (always sufficient: every loop
in the scanner consumes at least one character per step). -/
def Scanner.next_token (s : Scanner) : Except ScanErr (Token × Scanner) :=
  get_next_token (s.text.length + 2) s

/-- Construct a scanner for `src` and pull the first token. -/
def scan_first (src : String) : Except ScanErr (Token × Scanner) :=
  match Scanner.new src with
  | .ok s => s.next_token
  | .error e => .error e

/-! ## AST node model (src/nodes.rs)

Each Rust node struct is flattened into one constructor; `Var` nodes are
represented by their `value` field (the `Value::String` holding the
name), which is all the evaluator reads of them, and `Type` nodes by
their token. -/
/-- `Node` from src/nodes.rs. -/
inductive Node where
  | IfStatement (bool_expr : Node) (statements : List Node) (else_statements : List Node)
  | ForLoop (var_node : Value) (start : Node) (stop : Node) (statements : List Node)
  | BinOp (left : Node) (op : Token) (right : Node)
  | Num (value : Value)
  | Str (value : Value)
  | UnaryOp (op : Token) (expr : Node)
  | Program (children : List Node)
  | Assign (left : Value) (op : Token) (right : Node)
  | VarDecl (var_node : Value) (type_node : Token)
  | BoolExpr (left : Node) (op : Token) (right : Node)
  | DeclAssign (left : Value) (type_node : Token) (op : Token) (right : Node)
  | Var (value : Value)
  | PrintVar (var_node : Value)
  | PrintStr (value : Value)
  | Read (var_node : Value)
  | NoOp
  deriving Repr

/-! ## Parser (src/parser.rs) -/
/-- Parser failure: `syntaxError` is `panic!("Syntax error")`, `scan`
lifts a scanner failure raised while pulling the next token. -/
inductive PErr where
  | syntaxError
  | scan (e : ScanErr)
  | fuelOut
  deriving DecidableEq, Repr

/-- Parser state, from src/parser.rs. -/
structure PState where
  scanner : Scanner
  current_token : Token
  deriving DecidableEq, Repr

/-- `Parser::new`: pulls the first token. -/
def Parser.new (s : Scanner) : Except PErr PState :=
  match s.next_token with
  | .ok (t, s') => .ok { scanner := s', current_token := t }
  | .error e => .error (.scan e)

/-- `Parser::eat`. -/
def eat (tt : TokenType) (ps : PState) : Except PErr PState :=
  if ps.current_token.type_ = tt then
    match ps.scanner.next_token with
    | .ok (t, s') => .ok { scanner := s', current_token := t }
    | .error e => .error (.scan e)
  else
    .error .syntaxError

/-- `Parser::empty`. -/
def empty_stmt : Node := Node.NoOp

/-- `Parser::variable`: returns the `Var` node's value (the name token's
payload) after eating the `ID`. -/
def variable_ (ps : PState) : Except PErr (Value × PState) := do
  let v := ps.current_token.value
  let ps ← eat .ID ps
  .ok (v, ps)

/-- `Parser::print_statement`. -/
def print_statement (ps : PState) : Except PErr (Node × PState) := do
  let ps ← eat .Print ps
  match ps.current_token.type_ with
  | .ID => do
    let (v, ps) ← variable_ ps
    .ok (Node.PrintVar v, ps)
  | .StringLiteral => do
    let string_token := ps.current_token
    let ps ← eat .StringLiteral ps
    .ok (Node.PrintStr (.String (value_display string_token.value)), ps)
  | _ => .error .syntaxError

/-- `Parser::read_statement`. -/
def read_statement (ps : PState) : Except PErr (Node × PState) := do
  let ps ← eat .Read ps
  match ps.current_token.type_ with
  | .ID => do
    let (v, ps) ← variable_ ps
    .ok (Node.Read v, ps)
  | _ => .error .syntaxError

mutual

/-- `Parser::program`. -/
def program : Nat → PState → Except PErr (Node × PState)
  | 0, _ => .error .fuelOut
  | n+1, ps => do
    let (nodes, ps) ← statement_list n ps
    .ok (Node.Program nodes, ps)

/-- `Parser::statement_list` (first statement, then the `while Semi` loop,
then the trailing-`ID` check). -/
def statement_list : Nat → PState → Except PErr (List Node × PState)
  | 0, _ => .error .fuelOut
  | n+1, ps =>
    match statement n ps with
    | .error e => .error e
    | .ok (node, ps) =>
      match statement_list_loop n [node] ps with
      | .error e => .error e
      | .ok (results, ps) =>
        if ps.current_token.type_ = .ID then .error .syntaxError
        else .ok (results, ps)

/-- The `while let TokenType::Semi` loop inside `Parser::statement_list`. -/
def statement_list_loop : Nat → List Node → PState → Except PErr (List Node × PState)
  | 0, _, _ => .error .fuelOut
  | n+1, results, ps =>
    if ps.current_token.type_ = .Semi then
      match eat .Semi ps with
      | .error e => .error e
      | .ok ps =>
        match statement n ps with
        | .error e => .error e
        | .ok (node, ps) => statement_list_loop n (results ++ [node]) ps
    else
      .ok (results, ps)

/-- `Parser::statement`. -/
def statement : Nat → PState → Except PErr (Node × PState)
  | 0, _ => .error .fuelOut
  | n+1, ps =>
    match ps.current_token.type_ with
    | .ID => assignment_statement n ps
    | .Var => declaration_statement n ps
    | .Print => print_statement ps
    | .Read => read_statement ps
    | .For => for_loop n ps
    | .If => if_statement n ps
    | _ => .ok (empty_stmt, ps)

/-- `Parser::assignment_statement`. -/
def assignment_statement : Nat → PState → Except PErr (Node × PState)
  | 0, _ => .error .fuelOut
  | n+1, ps => do
    let (left, ps) ← variable_ ps
    let token := ps.current_token
    let ps ← eat .Assign ps
    let (right, ps) ← expr n ps
    .ok (Node.Assign left token right, ps)

/-- `Parser::declaration_statement`. -/
def declaration_statement : Nat → PState → Except PErr (Node × PState)
  | 0, _ => .error .fuelOut
  | n+1, ps =>
    if ps.current_token.type_ = .Var then do
      let ps ← eat .Var ps
      let (var_node, ps) ← variable_ ps
      let ps ← eat .Colon ps
      match ps.current_token.type_ with
      | .Integer => do
        let type_node := ps.current_token
        let ps ← eat .Integer ps
        match ps.current_token.type_ with
        | .Semi => .ok (Node.VarDecl var_node type_node, ps)
        | .Assign => do
          let token := ps.current_token
          let ps ← eat .Assign ps
          let (right, ps) ← expr n ps
          .ok (Node.DeclAssign var_node type_node token right, ps)
        | _ => .error .syntaxError
      | .Str => do
        let type_node := ps.current_token
        let ps ← eat .Str ps
        match ps.current_token.type_ with
        | .Semi => .ok (Node.VarDecl var_node type_node, ps)
        | .Assign => do
          let token := ps.current_token
          let ps ← eat .Assign ps
          let string_token := ps.current_token
          match ps.current_token.type_ with
          | .StringLiteral => do
            let ps ← eat .StringLiteral ps
            .ok (Node.DeclAssign var_node type_node token (Node.Str string_token.value), ps)
          | _ => do
            let (right, ps) ← expr n ps
            .ok (Node.DeclAssign var_node type_node token right, ps)
        | _ => .error .syntaxError
      | .Bool => do
        let type_node := ps.current_token
        let ps ← eat .Bool ps
        match ps.current_token.type_ with
        | .Semi => .ok (Node.VarDecl var_node type_node, ps)
        | .Assign => do
          let token := ps.current_token
          let ps ← eat .Assign ps
          let (right, ps) ← bool_expr n ps
          .ok (Node.DeclAssign var_node type_node token right, ps)
        | _ => .error .syntaxError
      | _ => .error .syntaxError
    else
      .ok (Node.NoOp, ps)

/-- `Parser::if_statement`. -/
def if_statement : Nat → PState → Except PErr (Node × PState)
  | 0, _ => .error .fuelOut
  | n+1, ps => do
    let ps ← eat .If ps
    let (cond, ps) ← bool_expr n ps
    let ps ← eat .Do ps
    let (statements, ps) ← statement_list n ps
    let ps ← (match ps.current_token.type_ with
              | .Else => eat .Else ps
              | _ => .ok ps)
    let (else_statements, ps) ← statement_list n ps
    let node := Node.IfStatement cond statements else_statements
    let ps ← eat .End ps
    let ps ← eat .If ps
    .ok (node, ps)

/-- `Parser::for_loop`: note the body is dropped only `if
statements.is_empty()`, a condition `statement_list` can never produce. -/
def for_loop : Nat → PState → Except PErr (Node × PState)
  | 0, _ => .error .fuelOut
  | n+1, ps =>
    match eat .For ps with
    | .error e => .error e
    | .ok ps =>
      match variable_ ps with
      | .error e => .error e
      | .ok (var, ps) =>
        match eat .In ps with
        | .error e => .error e
        | .ok ps =>
          match expr n ps with
          | .error e => .error e
          | .ok (start, ps) =>
            match eat .To ps with
            | .error e => .error e
            | .ok ps =>
              match expr n ps with
              | .error e => .error e
              | .ok (stop, ps) =>
                match eat .Do ps with
                | .error e => .error e
                | .ok ps =>
                  match statement_list n ps with
                  | .error e => .error e
                  | .ok (statements, ps) =>
                    let node := if statements.isEmpty then Node.NoOp
                                else Node.ForLoop var start stop statements
                    match eat .End ps with
                    | .error e => .error e
                    | .ok ps =>
                      match eat .For ps with
                      | .error e => .error e
                      | .ok ps => .ok (node, ps)

/-- `Parser::factor`. -/
def factor : Nat → PState → Except PErr (Node × PState)
  | 0, _ => .error .fuelOut
  | n+1, ps =>
    let token := ps.current_token
    match token.type_ with
    | .Plus => do
      let ps ← eat .Plus ps
      let (f, ps) ← factor n ps
      .ok (Node.UnaryOp token f, ps)
    | .Minus => do
      let ps ← eat .Minus ps
      let (f, ps) ← factor n ps
      .ok (Node.UnaryOp token f, ps)
    | .Integer => do
      let ps ← eat .Integer ps
      .ok (Node.Num token.value, ps)
    | .LeftParen => do
      let ps ← eat .LeftParen ps
      let (node, ps) ← expr n ps
      let ps ← eat .RightParen ps
      .ok (node, ps)
    | _ => do
      let (v, ps) ← variable_ ps
      .ok (Node.Var v, ps)

/-- `Parser::term` (first factor, then the `while Mul | Div` loop). -/
def term : Nat → PState → Except PErr (Node × PState)
  | 0, _ => .error .fuelOut
  | n+1, ps => do
    let (node, ps) ← factor n ps
    term_loop n node ps

/-- The `while Mul | Div` loop inside `Parser::term`. -/
def term_loop : Nat → Node → PState → Except PErr (Node × PState)
  | 0, _, _ => .error .fuelOut
  | n+1, node, ps =>
    let token := ps.current_token
    match token.type_ with
    | .Mul => do
      let ps ← eat .Mul ps
      let (f, ps) ← factor n ps
      term_loop n (Node.BinOp node token f) ps
    | .Div => do
      let ps ← eat .Div ps
      let (f, ps) ← factor n ps
      term_loop n (Node.BinOp node token f) ps
    | _ => .ok (node, ps)

/-- `Parser::bool_expr`. -/
def bool_expr : Nat → PState → Except PErr (Node × PState)
  | 0, _ => .error .fuelOut
  | n+1, ps =>
    let token := ps.current_token
    match token.type_ with
    | .Not => do
      let ps ← eat .Not ps
      let (right, ps) ← expr n ps
      .ok (Node.BoolExpr Node.NoOp token right, ps)
    | _ => do
      let (left, ps) ← expr n ps
      let token := ps.current_token
      match token.type_ with
      | .LessThan => do
        let ps ← eat .LessThan ps
        let (right, ps) ← expr n ps
        .ok (Node.BoolExpr left token right, ps)
      | .Equal => do
        let ps ← eat .Equal ps
        let (right, ps) ← expr n ps
        .ok (Node.BoolExpr left token right, ps)
      | .And => do
        let ps ← eat .And ps
        let (right, ps) ← expr n ps
        .ok (Node.BoolExpr left token right, ps)
      | _ => .ok (Node.BoolExpr left (Token.mk .Semi .None) Node.NoOp, ps)

/-- `Parser::expr` (first term, then the `while Plus | Minus` loop). -/
def expr : Nat → PState → Except PErr (Node × PState)
  | 0, _ => .error .fuelOut
  | n+1, ps => do
    let (node, ps) ← term n ps
    expr_loop n node ps

/-- The `while Plus | Minus` loop inside `Parser::expr`. -/
def expr_loop : Nat → Node → PState → Except PErr (Node × PState)
  | 0, _, _ => .error .fuelOut
  | n+1, node, ps =>
    let token := ps.current_token
    match token.type_ with
    | .Plus => do
      let ps ← eat .Plus ps
      let (t, ps) ← term n ps
      expr_loop n (Node.BinOp node token t) ps
    | .Minus => do
      let ps ← eat .Minus ps
      let (t, ps) ← term n ps
      expr_loop n (Node.BinOp node token t) ps
    | _ => .ok (node, ps)

end

/-- `Parser::parse`: parses one program and requires the stream to end at
`EOF`. -/
def parse (n : Nat) (ps : PState) : Except PErr (Node × PState) := do
  let (node, ps) ← program n ps
  if ps.current_token.type_ = .EOF then .ok (node, ps)
  else .error .syntaxError

/-- Scan and parse a whole source string. -/
def parse_source (n : Nat) (src : String) : Except PErr (Node × PState) :=
  match Scanner.new src with
  | .error e => .error (.scan e)
  | .ok sc =>
    match Parser.new sc with
    | .error e => .error e
    | .ok ps => parse n ps

/-! ## Interpreter (src/interpreter.rs) -/
/-- The global variable table (`HashMap<String, Value>`), modelled as a
total function into `Option Value`. -/
def Table : Type := String → Option Value

/-- `HashMap::get`. -/
def Table.get (t : Table) (k : String) : Option Value := t k

/-- `HashMap::insert` (overwrite semantics). -/
def Table.insert (t : Table) (k : String) (v : Value) : Table :=
  fun x => if x = k then some v else t x

/-- Interpreter state: the global scope plus the two console streams. -/
structure St where
  global_scope : Table
  stdin : List String
  stdout : List String

/-- Runtime failure: `panicMsg` an explicit `panic!` with its message,
`unwrapNone` an `Option::unwrap` on `None`, `unimpl` an
`unimplemented!()`, `fuelOut` the fuel artifact of the embedding. -/
inductive RtErr where
  | panicMsg (msg : String)
  | unwrapNone
  | unimpl
  | fuelOut
  deriving DecidableEq, Repr

/-- Result of an evaluation step: errors carry the state at the moment of
the panic. -/
def IRes (α : Type) : Type := Except (RtErr × St) (α × St)

/-- Rust `i32::from_str`: optional sign, one or more ASCII digits,
value within the `i32` range. -/
def parseI32 (s : String) : Option Int :=
  match s.data with
  | [] => none
  | c :: rest =>
    let (neg, ds) :=
      if c = '-' then (true, rest)
      else if c = '+' then (false, rest)
      else (false, c :: rest)
    if ds = [] then none
    else if ds.all Char.isDigit then
      let v : Int := if neg then -(digits_val ds : Int) else (digits_val ds : Int)
      if -2147483648 ≤ v ∧ v ≤ 2147483647 then some v else none
    else none

/-- `Interpreter::visit_var`: the name lookup; a missing entry is the
`.unwrap()` panic on `None`. -/
def visit_var (value : Value) (st : St) : IRes Value :=
  match value with
  | .String s =>
    match st.global_scope.get (to_lowercase s) with
    | some v => .ok (v, st)
    | none => .error (.unwrapNone, st)
  | _ => .error (.panicMsg "Error", st)

/-- `Interpreter::visit_num`. -/
def visit_num (value : Value) (st : St) : IRes Int :=
  match value with
  | .Number n => .ok (n, st)
  | _ => .error (.unimpl, st)

/-- `Interpreter::visit_str`. -/
def visit_str (value : Value) (st : St) : IRes String :=
  match value with
  | .String s => .ok (s, st)
  | _ => .error (.unimpl, st)

/-- `Interpreter::visit_var_decl`: inserts the declared type's default
value — string → `""`, integer → `0`, boolean → `true`. -/
def visit_var_decl (var_node : Value) (type_node : Token) (st : St) : IRes Unit :=
  match var_node with
  | .String s =>
    match type_node.type_ with
    | .Str =>
      .ok ((), { st with global_scope := st.global_scope.insert (to_lowercase s) (.String "") })
    | .Integer =>
      .ok ((), { st with global_scope := st.global_scope.insert (to_lowercase s) (.Number 0) })
    | .Bool =>
      .ok ((), { st with global_scope := st.global_scope.insert (to_lowercase s) (.Boolean true) })
    | _ => .error (.unimpl, st)
  | _ => .error (.panicMsg "Error", st)

/-- `Interpreter::visit_print_var`. -/
def visit_print_var (var_node : Value) (st : St) : IRes Unit :=
  match visit_var var_node st with
  | .error e => .error e
  | .ok (v, st) =>
    match v with
    | .Number n => .ok ((), { st with stdout := st.stdout ++ [toString n] })
    | .String s => .ok ((), { st with stdout := st.stdout ++ [s] })
    | .Boolean b => .ok ((), { st with stdout := st.stdout ++ [toString b] })
    | _ => .error (.panicMsg "variable used before declaration", st)

/-- `Interpreter::visit_print_str`. -/
def visit_print_str (value : Value) (st : St) : IRes Unit :=
  match value with
  | .String s => .ok ((), { st with stdout := st.stdout ++ [s] })
  | _ => .error (.panicMsg "Error", st)

/-- `Interpreter::visit_read`: reads one line, strips its newline, then
dispatches on the *current* type of the target variable.  On the
integer path the input must `parse::<i32>()`, but the value stored is
still the raw text as a `Value::String`. -/
def visit_read (var_node : Value) (st : St) : IRes Unit :=
  match var_node with
  | .String s =>
    let input := match st.stdin with
                 | [] => ""
                 | l :: _ => l
    let st := { st with stdin := st.stdin.tail }
    match st.global_scope.get (to_lowercase s) with
    | none => .error (.unwrapNone, st)
    | some (.String _) =>
      .ok ((), { st with global_scope := st.global_scope.insert (to_lowercase s) (.String input) })
    | some (.Number _) =>
      if (parseI32 input).isSome then
        .ok ((), { st with global_scope := st.global_scope.insert (to_lowercase s) (.String input) })
      else
        .error (.panicMsg "Error: cannot read non-numeric value into numeric variable", st)
    | some _ =>
      .error (.panicMsg ("variable " ++ s ++ " used before declaration"), st)
  | _ => .error (.panicMsg "Error", st)

/-- The value list of Rust `start..stop` over integers. -/
def range_list (start stop : Int) : List Int :=
  (List.range (stop - start).toNat).map (fun (k : Nat) => start + (k : Int))

mutual

/-- `Interpreter::visit`: dispatch over the node kind.  Statement-kind
nodes evaluate to `Value::None`. -/
def visit : Nat → Node → St → IRes Value
  | 0, _, st => .error (.fuelOut, st)
  | n+1, nd, st =>
    match nd with
    | .BinOp l op r => visit_bin_op n l op r st
    | .UnaryOp op e =>
      match visit_unary_op n op e st with
      | .ok (i, st) => .ok (.Number i, st)
      | .error er => .error er
    | .Num v =>
      match visit_num v st with
      | .ok (i, st) => .ok (.Number i, st)
      | .error er => .error er
    | .Str v =>
      match visit_str v st with
      | .ok (s, st) => .ok (.String s, st)
      | .error er => .error er
    | .NoOp => .ok (.None, st)
    | .BoolExpr l op r =>
      match visit_bool_expr n l op r st with
      | .ok (b, st) => .ok (.Boolean b, st)
      | .error er => .error er
    | .ForLoop v s e body =>
      match visit_for_loop n v s e body st with
      | .ok (_, st) => .ok (.None, st)
      | .error er => .error er
    | .IfStatement c ts es =>
      match visit_if_statement n c ts es st with
      | .ok (_, st) => .ok (.None, st)
      | .error er => .error er
    | .Assign l op r =>
      match visit_assign n l op r st with
      | .ok (_, st) => .ok (.None, st)
      | .error er => .error er
    | .Var v => visit_var v st
    | .Program children =>
      match visit_list n children st with
      | .ok (_, st) => .ok (.None, st)
      | .error er => .error er
    | .VarDecl v ty =>
      match visit_var_decl v ty st with
      | .ok (_, st) => .ok (.None, st)
      | .error er => .error er
    | .DeclAssign l ty op r =>
      match visit_decl_assign n l ty op r st with
      | .ok (_, st) => .ok (.None, st)
      | .error er => .error er
    | .PrintStr v =>
      match visit_print_str v st with
      | .ok (_, st) => .ok (.None, st)
      | .error er => .error er
    | .PrintVar v =>
      match visit_print_var v st with
      | .ok (_, st) => .ok (.None, st)
      | .error er => .error er
    | .Read v =>
      match visit_read v st with
      | .ok (_, st) => .ok (.None, st)
      | .error er => .error er

/-- A `for statement in &statements { self.visit(statement); }` loop. -/
def visit_list : Nat → List Node → St → IRes Unit
  | _, [], st => .ok ((), st)
  | 0, _ :: _, st => .error (.fuelOut, st)
  | n+1, x :: xs, st =>
    match visit n x st with
    | .ok (_, st) => visit_list n xs st
    | .error er => .error er

/-- The `for i in start..end` loop of `Interpreter::visit_for_loop`:
rebind the loop variable, then run the whole body, for each value. -/
def loop_iter : Nat → List Int → String → List Node → St → IRes Unit
  | _, [], _, _, st => .ok ((), st)
  | 0, _ :: _, _, _, st => .error (.fuelOut, st)
  | n+1, i :: is, var_name, body, st =>
    let st := { st with
      global_scope := st.global_scope.insert (to_lowercase var_name) (.Number i) }
    match visit_list n body st with
    | .ok (_, st) => loop_iter n is var_name body st
    | .error er => .error er

/-- `Interpreter::visit_for_loop`: validate the current binding of the
loop variable via `visit_var`, extract the name, evaluate start and
stop, then iterate. -/
def visit_for_loop : Nat → Value → Node → Node → List Node → St → IRes Unit
  | 0, _, _, _, _, st => .error (.fuelOut, st)
  | n+1, var_node, start, stop, body, st =>
    match visit_var var_node st with
    | .error er => .error er
    | .ok (v, st) =>
      match v with
      | .Number _ =>
        (match var_node with
         | .String var_name =>
           (match visit n start st with
            | .error er => .error er
            | .ok (sv, st) =>
              match sv with
              | .Number s =>
                (match visit n stop st with
                 | .error er => .error er
                 | .ok (ev, st) =>
                   match ev with
                   | .Number e => loop_iter n (range_list s e) var_name body st
                   | _ => .error (.panicMsg "Error", st))
              | _ => .error (.panicMsg "Error", st))
         | _ => .error (.panicMsg "Error", st))
      | .String _ => .error (.panicMsg "loop variable must be declared as integer", st)
      | .Boolean _ => .error (.panicMsg "loop variable must be declared as integer", st)
      | _ => .error (.panicMsg "variable used before declaration", st)

/-- `Interpreter::visit_bool_expr`: `And` evaluates both sides (in
left-then-right order, with no short-circuit), `Semi` is the
pass-through form, `Not` negates the right side, anything else falls
through to the integer comparisons. -/
def visit_bool_expr : Nat → Node → Token → Node → St → IRes Bool
  | 0, _, _, _, st => .error (.fuelOut, st)
  | n+1, l, op, r, st =>
    match op.type_ with
    | .And =>
      (match visit n l st with
       | .error er => .error er
       | .ok (lv, st) =>
         match lv with
         | .Boolean lb =>
           (match visit n r st with
            | .error er => .error er
            | .ok (rv, st) =>
              match rv with
              | .Boolean rb => .ok (lb && rb, st)
              | _ => .error (.panicMsg "Error", st))
         | _ => .error (.panicMsg "Error", st))
    | .Semi =>
      (match visit n l st with
       | .error er => .error er
       | .ok (lv, st) =>
         match lv with
         | .Boolean b => .ok (b, st)
         | _ => .error (.panicMsg "Error", st))
    | .Not =>
      (match visit n r st with
       | .error er => .error er
       | .ok (rv, st) =>
         match rv with
         | .Boolean b => .ok (!b, st)
         | _ => .error (.panicMsg "Type error", st))
    | _ =>
      match visit n l st with
      | .error er => .error er
      | .ok (lv, st) =>
        match lv with
        | .Number li =>
          (match visit n r st with
           | .error er => .error er
           | .ok (rv, st) =>
             match rv with
             | .Number ri =>
               (match op.type_ with
                | .Equal => .ok (decide (li = ri), st)
                | .LessThan => .ok (decide (li < ri), st)
                | _ => .error (.unimpl, st))
             | _ => .error (.panicMsg "Type error", st))
        | _ => .error (.panicMsg "Type error", st)

/-- `Interpreter::visit_if_statement`. -/
def visit_if_statement : Nat → Node → List Node → List Node → St → IRes Unit
  | 0, _, _, _, st => .error (.fuelOut, st)
  | n+1, cond, statements, else_statements, st =>
    match visit n cond st with
    | .error er => .error er
    | .ok (v, st) =>
      match v with
      | .Boolean b =>
        if b then visit_list n statements st else visit_list n else_statements st
      | _ => .error (.panicMsg "Error: If statement condition must be a boolean value", st)

/-- `Interpreter::visit_bin_op`: both operands are evaluated first;
integer pairs support `+ - * /` (with the host's divide-by-zero
panic), string pairs support `+` (concatenation), anything else is a
type mismatch panic. -/
def visit_bin_op : Nat → Node → Token → Node → St → IRes Value
  | 0, _, _, _, st => .error (.fuelOut, st)
  | n+1, l, op, r, st =>
    match visit n l st with
    | .error er => .error er
    | .ok (lv, st) =>
      match visit n r st with
      | .error er => .error er
      | .ok (rv, st) =>
        match lv, rv with
        | .Number a, .Number b =>
          (match op.type_ with
           | .Plus => .ok (.Number (a + b), st)
           | .Minus => .ok (.Number (a - b), st)
           | .Mul => .ok (.Number (a * b), st)
           | .Div =>
             if b = 0 then .error (.panicMsg "attempt to divide by zero", st)
             else .ok (.Number (a.tdiv b), st)
           | _ => .error (.unimpl, st))
        | .String a, .String b =>
          (match op.type_ with
           | .Plus => .ok (.String (a ++ b), st)
           | _ => .error (.unimpl, st))
        | _, _ => .error (.panicMsg "Type mismatch", st)

/-- `Interpreter::visit_unary_op`. -/
def visit_unary_op : Nat → Token → Node → St → IRes Int
  | 0, _, _, st => .error (.fuelOut, st)
  | n+1, op, e, st =>
    match visit n e st with
    | .error er => .error er
    | .ok (v, st) =>
      match v with
      | .Number i =>
        (match op.type_ with
         | .Plus => .ok (0 + i, st)
         | .Minus => .ok (0 - i, st)
         | _ => .error (.unimpl, st))
      | _ => .error (.panicMsg "Error", st)

/-- `Interpreter::visit_assign`: the existing value (looked up via
`visit_var`) and the new value must be the same variant; the store is
keyed on the lowercased name. -/
def visit_assign : Nat → Value → Token → Node → St → IRes Unit
  | 0, _, _, _, st => .error (.fuelOut, st)
  | n+1, left, _op, right, st =>
    match visit_var left st with
    | .error er => .error er
    | .ok (lv, st) =>
      match visit n right st with
      | .error er => .error er
      | .ok (rv, st) =>
        match lv, rv with
        | .Number _, .Number _ | .String _, .String _ | .Boolean _, .Boolean _ =>
          (match left with
           | .String s =>
             .ok ((), { st with global_scope := st.global_scope.insert (to_lowercase s) rv })
           | _ => .error (.panicMsg "Error", st))
        | _, _ => .error (.panicMsg "Type mismatch", st)

/-- `Interpreter::visit_decl_assign`: stores the initializer's value
without checking it against the declared type. -/
def visit_decl_assign : Nat → Value → Token → Token → Node → St → IRes Unit
  | 0, _, _, _, _, st => .error (.fuelOut, st)
  | n+1, left, _ty, _op, right, st =>
    match left with
    | .String s =>
      (match visit n right st with
       | .error er => .error er
       | .ok (v, st) =>
         .ok ((), { st with global_scope := st.global_scope.insert (to_lowercase s) v }))
    | _ => .error (.panicMsg "Error", st)

end

/-- Top-level failure of the whole pipeline. -/
inductive TopErr where
  | parseErr (e : PErr)
  | runtimeErr (e : RtErr × St)

/-- The empty table. -/
def empty_table : Table := fun _ => none

/-- Initial interpreter state for the given input lines. -/
def init_st (stdin : List String) : St :=
  { global_scope := empty_table, stdin := stdin, stdout := [] }

/-- `Interpreter::interpret` for a whole source string: scan, parse,
evaluate. -/
def interpret (n : Nat) (src : String) (stdin : List String) : Except TopErr (Value × St) :=
  match Scanner.new src with
  | .error e => .error (.parseErr (.scan e))
  | .ok sc =>
    match Parser.new sc with
    | .error e => .error (.parseErr e)
    | .ok ps =>
      match parse n ps with
      | .error e => .error (.parseErr e)
      | .ok (tree, _) =>
        match visit n tree (init_st stdin) with
        | .ok r => .ok r
        | .error e => .error (.runtimeErr e)

/-- The global table in the final state of a run (also defined at the
moment of a runtime panic; `none`-everywhere for parse failures). -/
def final_table (r : Except TopErr (Value × St)) : Table :=
  match r with
  | .ok (_, st) => st.global_scope
  | .error (.runtimeErr (_, st)) => st.global_scope
  | .error (.parseErr _) => empty_table

/-- The final-state table of an `IRes`. -/
def res_table {α : Type} (r : IRes α) : Table :=
  match r with
  | .ok (_, st) => st.global_scope
  | .error (_, st) => st.global_scope

/-- Whether a runtime value is the boolean variant. -/
def Value.isBoolean (v : Value) : Bool :=
  match v with
  | .Boolean _ => true
  | _ => false

/-- Whether an evaluation step succeeded. -/
def res_ok {α : Type} (r : IRes α) : Bool :=
  match r with
  | .ok _ => true
  | .error _ => false

/-- A table whose every present key is in canonical (lower) case. -/
def canon_table (t : Table) : Prop :=
  ∀ k v, t k = some v → to_lowercase k = k

theorem toNat_ofNat_valid (n : Nat) (h : n.isValidChar) : (Char.ofNat n).toNat = n := by
  unfold Char.ofNat
  rw [dif_pos h]
  rfl

theorem char_toLower_idem (c : Char) : c.toLower.toLower = c.toLower := by
  unfold Char.toLower
  by_cases h : c.toNat ≥ 65 ∧ c.toNat ≤ 90
  · rw [if_pos h]
    have hval : (c.toNat + 32).isValidChar := Or.inl (by omega)
    rw [toNat_ofNat_valid _ hval]
    rw [if_neg (by omega)]
  · rw [if_neg h, if_neg h]

theorem to_lowercase_idem (s : String) : to_lowercase (to_lowercase s) = to_lowercase s := by
  unfold to_lowercase
  simp only [List.map_map]
  congr 1
  exact List.map_congr_left (fun c _ => char_toLower_idem c)

/-! Sanity checks of the scanner embedding on concrete inputs. -/
example : (match scan_first "var" with
           | .ok (t, _) => some t
           | .error _ => none) = some (Token.mk .Var (.String "var")) := by rfl

example : (match scan_first "  123 " with
           | .ok (t, _) => some t
           | .error _ => none) = some (Token.mk .Integer (.Number 123)) := by rfl

example : (match scan_first ":= x" with
           | .ok (t, _) => some t
           | .error _ => none) = some (Token.mk .Assign (.String ":=")) := by rfl

example : (match scan_first "// c\n. " with
           | .ok (t, _) => some t
           | .error _ => none) = none := by rfl

/-! Sanity checks of the parser embedding. -/
example : (match parse_source 100 "x := 1 + 2 * 3" with
           | .ok (nd, _) => some nd
           | .error _ => none) =
    some (Node.Program [Node.Assign (.String "x") (Token.mk .Assign (.String ":="))
      (Node.BinOp (Node.Num (.Number 1)) (Token.mk .Plus (.Char '+'))
        (Node.BinOp (Node.Num (.Number 2)) (Token.mk .Mul (.Char '*'))
          (Node.Num (.Number 3))))]) := by rfl

example : (match parse_source 100 "for i in 0 .. 5 do end for" with
           | .ok (nd, _) => some nd
           | .error _ => none) =
    some (Node.Program [Node.ForLoop (.String "i")
      (Node.Num (.Number 0)) (Node.Num (.Number 5)) [Node.NoOp]]) := by rfl

/-! Sanity checks: the repository's own regression test
(`variables_and_arithmetic` in src/interpreter.rs) and the spec's §8
end-to-end scenario. -/
example :
    final_table (interpret 100 "var a : int := 2;\nvar b : int := 10 * a + 10;\nvar c : int := a - - b;" []) "a" = some (.Number 2) := by rfl

example :
    final_table (interpret 100 "var a : int := 2;\nvar b : int := 10 * a + 10;\nvar c : int := a - - b;" []) "b" = some (.Number 30) := by rfl

example :
    final_table (interpret 100 "var a : int := 2;\nvar b : int := 10 * a + 10;\nvar c : int := a - - b;" []) "c" = some (.Number 32) := by rfl

example :
    (match interpret 100 "var b : int := 30; print b" [] with
     | .ok (_, st) => st.stdout
     | .error _ => []) = ["30"] := by rfl

/-! ## Claim theorems -/
/-- C9: constructing a `Scanner` for the empty source string fails
immediately with the out-of-bounds index panic of
`text.as_bytes()[0]`, so the core pipeline never produces an
end-of-input token for empty input. -/
theorem c9_scanner_new_empty_input_panics :
    Scanner.new "" = .error .oob := by rfl

/-- C10: on inputs whose final character is `:`, `.` or `/`, the
scanner's one-character lookahead (`peek`, guarded by `pos > len` but
reading index `pos + 1`) indexes past the end of the text and fails
with an out-of-bounds access — not with a token, and not with the
scanner's own lexical error. -/
theorem c10_peek_out_of_bounds_on_final_lookahead_char :
    scan_first ":" = .error .oob
    ∧ scan_first "." = .error .oob
    ∧ scan_first "/" = .error .oob := by
  exact ⟨rfl, rfl, rfl⟩

/-- C3 (evaluation of the code at the failing input): scanning the
six-character source `"a\"b"` does *not* yield the value `a"b` the
claim describes; the escape arm advances past the backslash and then
`peek`s (which reads one position further), so it appends the
character *after* the escaped quote and then processes that character
again, producing the value `abb`. -/
theorem c3_escape_appends_wrong_char :
    (match scan_first "\"a\\\"b\"" with
     | .ok (t, _) => some t.value
     | .error _ => none) = some (.String "abb")
    ∧ (Value.String "abb" = Value.String "a\"b" → False) := by
  refine ⟨rfl, ?_⟩
  intro h
  simp at h

/-- C1 counterexample: the parser does *not* discard an empty-bodied
for-loop (its body parses to the single `NoOp` statement, so
`statements.is_empty()` is false and a `ForLoop` node is built), and
evaluating `var i : int; for i in 0 .. 5 do end for` is *not*
equivalent to replacing the loop by a no-op: the loop rebinds `i` on
every iteration, leaving `i ↦ 4`, where the no-op replacement leaves
`i ↦ 0`. -/
theorem c1_empty_body_loop_counterexample :
    (match parse_source 100 "for i in 0 .. 5 do end for" with
     | .ok (nd, _) => some nd
     | .error _ => none) =
      some (Node.Program [Node.ForLoop (.String "i")
        (Node.Num (.Number 0)) (Node.Num (.Number 5)) [Node.NoOp]])
    ∧ final_table (interpret 100 "var i : int; for i in 0 .. 5 do end for" []) "i"
        = some (.Number 4)
    ∧ final_table (interpret 100 "var i : int; " []) "i" = some (.Number 0) := by
  exact ⟨rfl, rfl, rfl⟩

/-- C2 counterexample: a for-loop whose loop variable has no entry in the
global table is *rejected* — the pre-loop validation's `visit_var`
lookup `unwrap`s `None` and the run aborts; evaluation does not
proceed. -/
theorem c2_unbound_loop_var_counterexample :
    visit 10 (Node.ForLoop (.String "i") (Node.Num (.Number 0)) (Node.Num (.Number 5))
        [Node.NoOp]) (init_st [])
      = .error (.unwrapNone, init_st [])
    ∧ (match interpret 100 "for i in 0 .. 5 do print i end for" [] with
       | .error (.runtimeErr (e, _)) => some e
       | _ => none) = some .unwrapNone := by
  exact ⟨rfl, rfl⟩

/-- C4 counterexample: when the loop body writes the loop variable, the
variable does not remain bound to `e - 1` after the loop: running
`var i : int; for i in 0 .. 3 do i := 100 end for` leaves `i ↦ 100`,
not `i ↦ 2`. -/
theorem c4_body_overwrites_loop_var_counterexample :
    final_table (interpret 100 "var i : int; for i in 0 .. 3 do i := 100 end for" []) "i"
      = some (.Number 100) := by rfl

/-- C5: evaluating a `VarDecl` maps the (case-normalized) declared name
to the type's default value — integer → `0`, string → `""`, boolean →
`true` (not `false`) — leaves every other table entry unchanged, and
succeeds. -/
theorem c5_var_decl_default_values (name : String) (tv tv2 tv3 : Value) (st : St) (k : String) :
    res_table (visit_var_decl (.String name) (Token.mk .Integer tv) st) k
      = (if k = to_lowercase name then some (.Number 0) else st.global_scope k)
    ∧ res_table (visit_var_decl (.String name) (Token.mk .Str tv2) st) k
      = (if k = to_lowercase name then some (.String "") else st.global_scope k)
    ∧ res_table (visit_var_decl (.String name) (Token.mk .Bool tv3) st) k
      = (if k = to_lowercase name then some (.Boolean true) else st.global_scope k)
    ∧ res_ok (visit_var_decl (.String name) (Token.mk .Integer tv) st) = true
    ∧ res_ok (visit_var_decl (.String name) (Token.mk .Str tv2) st) = true
    ∧ res_ok (visit_var_decl (.String name) (Token.mk .Bool tv3) st) = true := by
  exact ⟨rfl, rfl, rfl, rfl, rfl, rfl⟩

/-- C6: a `Read` into a variable currently bound to an integer stores the
*raw input text as a string-tagged value* when the line parses as a
signed 32-bit integer, and fails fatally with the table unchanged when
it does not. -/
theorem c6_read_into_int_stores_raw_text (name : String) (st : St) (m : Int)
    (hbound : st.global_scope.get (to_lowercase name) = some (.Number m)) :
    ((parseI32 (st.stdin.headD "")).isSome = true →
      visit_read (.String name) st =
        .ok ((), { st with
                   stdin := st.stdin.tail
                   global_scope :=
                     st.global_scope.insert (to_lowercase name)
                       (.String (st.stdin.headD "")) }))
    ∧ (parseI32 (st.stdin.headD "") = none →
      visit_read (.String name) st =
        .error (.panicMsg "Error: cannot read non-numeric value into numeric variable",
                { st with stdin := st.stdin.tail })
      ∧ res_table (visit_read (.String name) st) = st.global_scope) := by
  constructor
  · intro hp
    unfold visit_read
    have hin : (match st.stdin with | [] => "" | l :: _ => l) = st.stdin.headD "" := by
      cases st.stdin <;> rfl
    rw [hin]
    have : st.global_scope.get (to_lowercase name) = some (.Number m) := hbound
    simp only [Table.get] at this
    simp only [Table.get, this, hp, if_true]
  · intro hp
    have hps : (parseI32 (st.stdin.headD "")).isSome = false := by
      rw [hp]; rfl
    have hin : (match st.stdin with | [] => "" | l :: _ => l) = st.stdin.headD "" := by
      cases st.stdin <;> rfl
    constructor
    · unfold visit_read
      rw [hin]
      simp only [Table.get] at hbound
      simp only [Table.get, hbound, hps]
      rfl
    · unfold visit_read
      rw [hin]
      simp only [Table.get] at hbound
      simp only [Table.get, hbound, hps]
      rfl

/-- Witness for C6 at a concrete state: variable `x` bound to an integer,
input line `42`. -/
theorem c6_read_witness :
    visit_read (.String "x")
        { global_scope := Table.insert empty_table "x" (.Number 0),
          stdin := ["42"], stdout := [] } =
      .ok ((), { global_scope := Table.insert (Table.insert empty_table "x" (.Number 0)) "x"
                   (.String "42")
                 stdin := []
                 stdout := [] }) := by
  have h := c6_read_into_int_stores_raw_text "x"
    { global_scope := Table.insert empty_table "x" (.Number 0),
      stdin := ["42"], stdout := [] } 0 (by rfl)
  exact h.1 (by rfl)

/-- C7: the `And` form of `visit_bool_expr` evaluates the left operand
and then *always* evaluates the right operand — whatever boolean the
left produced, with no short-circuit skip — returning the conjunction;
an operand that evaluates to a non-boolean (or whose evaluation
panics) aborts the run right there. -/
theorem c7_and_evaluates_both_operands (n : Nat) (l r : Node) (tv : Value) (st : St) :
    (∀ b₁ st₁, visit n l st = .ok (.Boolean b₁, st₁) →
      (∀ b₂ st₂, visit n r st₁ = .ok (.Boolean b₂, st₂) →
        visit_bool_expr (n+1) l (Token.mk .And tv) r st = .ok (b₁ && b₂, st₂))
      ∧ (∀ er, visit n r st₁ = .error er →
        visit_bool_expr (n+1) l (Token.mk .And tv) r st = .error er)
      ∧ (∀ v₂ st₂, visit n r st₁ = .ok (v₂, st₂) → v₂.isBoolean = false →
        visit_bool_expr (n+1) l (Token.mk .And tv) r st = .error (.panicMsg "Error", st₂)))
    ∧ (∀ v₁ st₁, visit n l st = .ok (v₁, st₁) → v₁.isBoolean = false →
      visit_bool_expr (n+1) l (Token.mk .And tv) r st = .error (.panicMsg "Error", st₁))
    ∧ (∀ er, visit n l st = .error er →
      visit_bool_expr (n+1) l (Token.mk .And tv) r st = .error er) := by
  refine ⟨fun b₁ st₁ hl => ⟨fun b₂ st₂ hr => ?_, fun er hr => ?_, fun v₂ st₂ hr hnb => ?_⟩,
          fun v₁ st₁ hl hnb => ?_, fun er hl => ?_⟩
  · simp only [visit_bool_expr, hl, hr]
  · simp only [visit_bool_expr, hl, hr]
  · simp only [visit_bool_expr, hl, hr]
    cases v₂ <;> simp_all [Value.isBoolean]
  · simp only [visit_bool_expr, hl]
    cases v₁ <;> simp_all [Value.isBoolean]
  · simp only [visit_bool_expr, hl]

/-- Witness for C7: left operand `1 = 2` is `false`, and the right
operand `3 = 3` is still evaluated, yielding `false && true = false`. -/
theorem c7_and_witness :
    visit_bool_expr 4
        (Node.BoolExpr (Node.Num (.Number 1)) (Token.mk .Equal (.Char '=')) (Node.Num (.Number 2)))
        (Token.mk .And (.Char '&'))
        (Node.BoolExpr (Node.Num (.Number 3)) (Token.mk .Equal (.Char '=')) (Node.Num (.Number 3)))
        (init_st []) =
      .ok (false, init_st []) := by
  have h := c7_and_evaluates_both_operands 3
    (Node.BoolExpr (Node.Num (.Number 1)) (Token.mk .Equal (.Char '=')) (Node.Num (.Number 2)))
    (Node.BoolExpr (Node.Num (.Number 3)) (Token.mk .Equal (.Char '=')) (Node.Num (.Number 3)))
    (.Char '&') (init_st [])
  have h2 := (h.1 false (init_st []) (by rfl)).1 true (init_st []) (by rfl)
  exact h2

/-! ## Shared helper lemmas -/
theorem canon_table_insert {t : Table} (h : canon_table t) (s : String) (v : Value) :
    canon_table (t.insert (to_lowercase s) v) := by
  intro k v' hk
  unfold Table.insert at hk
  split at hk
  · subst k
    exact to_lowercase_idem s
  · exact h k v' hk

theorem canon_table_empty : canon_table empty_table := by
  intro k v hk
  exact absurd hk (by simp [empty_table])

/-- `visit_var` never changes the state's table. -/
theorem visit_var_res_table (v : Value) (st : St) :
    res_table (visit_var v st) = st.global_scope := by
  cases v <;> simp only [visit_var, res_table]
  case String s =>
    cases h : st.global_scope.get (to_lowercase s) <;> simp [res_table]

/-- The statement loop of the parser only ever extends its accumulator. -/
theorem statement_list_loop_le :
    ∀ (n : Nat) (acc : List Node) (ps : PState) (res : List Node) (ps' : PState),
      statement_list_loop n acc ps = .ok (res, ps') → acc.length ≤ res.length := by
  intro n
  induction n with
  | zero =>
    intro acc ps res ps' h
    exact absurd h (by simp [statement_list_loop])
  | succ n ih =>
    intro acc ps res ps' h
    simp only [statement_list_loop] at h
    split at h
    · cases he : eat .Semi ps with
      | error e => simp only [he] at h; simp at h
      | ok ps₁ =>
        simp only [he] at h
        cases hs : statement n ps₁ with
        | error e => simp only [hs] at h; simp at h
        | ok p =>
          obtain ⟨node, ps₂⟩ := p
          simp only [hs] at h
          have := ih (acc ++ [node]) ps₂ res ps' h
          simp at this
          omega
    · cases h
      simp

/-- `statement_list` never returns an empty statement list. -/
theorem statement_list_ne_nil (n : Nat) (ps : PState) (res : List Node) (ps' : PState)
    (h : statement_list n ps = .ok (res, ps')) : 0 < res.length := by
  cases n with
  | zero => exact absurd h (by simp [statement_list])
  | succ n =>
    simp only [statement_list] at h
    cases hs : statement n ps with
    | error e => simp only [hs] at h; simp at h
    | ok p =>
      obtain ⟨node, ps₁⟩ := p
      simp only [hs] at h
      cases hl : statement_list_loop n [node] ps₁ with
      | error e => simp only [hl] at h; simp at h
      | ok p =>
        obtain ⟨results, ps₂⟩ := p
        simp only [hl] at h
        have hle := statement_list_loop_le n [node] ps₁ results ps₂ hl
        split at h
        · cases h
        · cases h
          simpa using hle

/-- `loop_iter` on the empty value list returns the state unchanged. -/
theorem loop_iter_nil (n : Nat) (vn : String) (body : List Node) (st : St) :
    loop_iter n [] vn body st = .ok ((), st) := by
  cases n <;> rfl

/-- `visit_list` on the singleton `NoOp` body returns the state unchanged. -/
theorem visit_list_noop (m : Nat) (st₁ st₂ : St)
    (h : visit_list m [Node.NoOp] st₁ = .ok ((), st₂)) : st₂ = st₁ := by
  match m with
  | 0 => exact absurd h (by simp [visit_list])
  | 1 => exact absurd h (by simp [visit_list, visit])
  | j+2 =>
    simp only [visit_list, visit] at h
    cases h
    rfl

/-- After a successful run of a nonempty iteration list, the loop
variable's slot holds the last value of the list, provided the body
preserves that slot. -/
theorem loop_iter_final_binding (vn : String) (body : List Node)
    (Hpres : ∀ (m : Nat) (st₁ st₂ : St), visit_list m body st₁ = .ok ((), st₂) →
      st₂.global_scope (to_lowercase vn) = st₁.global_scope (to_lowercase vn)) :
    ∀ (vals : List Int) (n : Nat) (st st' : St), vals ≠ [] →
      loop_iter n vals vn body st = .ok ((), st') →
      st'.global_scope (to_lowercase vn) = some (.Number (vals.getLastD 0)) := by
  intro vals
  induction vals with
  | nil => intro n st st' hne; exact absurd rfl hne
  | cons i vals ih =>
    intro n st st' _ h
    cases n with
    | zero => exact absurd h (by simp [loop_iter])
    | succ n =>
      simp only [loop_iter] at h
      cases hv : visit_list n body
          { st with global_scope := st.global_scope.insert (to_lowercase vn) (.Number i) } with
      | error e => simp only [hv] at h; simp at h
      | ok p =>
        obtain ⟨u, st₂⟩ := p
        simp only [hv] at h
        cases vals with
        | nil =>
          rw [loop_iter_nil] at h
          cases h
          have hb := Hpres n _ _ hv
          rw [hb]
          simp [Table.insert, List.getLastD]
        | cons j vals =>
          have := ih n st₂ st' (by simp) h
          rw [this]
          simp [List.getLastD]

/-- Membership in the Rust `start..stop` value list is exactly the
half-open range condition. -/
theorem mem_range_list (s e x : Int) : x ∈ range_list s e ↔ s ≤ x ∧ x < e := by
  unfold range_list
  rw [List.mem_map]
  constructor
  · rintro ⟨k, hk, rfl⟩
    rw [List.mem_range] at hk
    omega
  · rintro ⟨h₁, h₂⟩
    refine ⟨(x - s).toNat, ?_, ?_⟩
    · rw [List.mem_range]; omega
    · omega

theorem range_list_length (s e : Int) : (range_list s e).length = (e - s).toNat := by
  unfold range_list
  rw [List.length_map, List.length_range]

theorem range_list_eq_nil (s e : Int) (h : e ≤ s) : range_list s e = [] := by
  unfold range_list
  have : (e - s).toNat = 0 := by omega
  rw [this]
  rfl

theorem range_list_getLastD (s e : Int) (h : s < e) :
    (range_list s e).getLastD 0 = e - 1 := by
  unfold range_list
  have hk : (e - s).toNat = (e - s - 1).toNat + 1 := by omega
  rw [hk, List.range_succ, List.map_append]
  simp only [List.map_cons, List.map_nil, List.getLastD_concat]
  omega

theorem range_list_ne_nil (s e : Int) (h : s < e) : range_list s e ≠ [] := by
  have := range_list_length s e
  intro hn
  rw [hn] at this
  simp at this
  omega

/-- C2 (amended): the pre-loop validation of `visit_for_loop` *rejects* an
unbound loop variable — the lookup inside `visit_var` unwraps `None`
and the run aborts — and rejects a string- or boolean-bound variable
with the loop-variable type panic; only an existing integer binding
passes validation, after which the start expression is evaluated. -/
theorem c2_loop_var_validation (n : Nat) (vv : String) (startN stopN : Node)
    (body : List Node) (st : St) :
    (st.global_scope.get (to_lowercase vv) = none →
      visit_for_loop (n+1) (.String vv) startN stopN body st = .error (.unwrapNone, st))
    ∧ (∀ s, st.global_scope.get (to_lowercase vv) = some (.String s) →
      visit_for_loop (n+1) (.String vv) startN stopN body st
        = .error (.panicMsg "loop variable must be declared as integer", st))
    ∧ (∀ b, st.global_scope.get (to_lowercase vv) = some (.Boolean b) →
      visit_for_loop (n+1) (.String vv) startN stopN body st
        = .error (.panicMsg "loop variable must be declared as integer", st))
    ∧ (∀ m er, st.global_scope.get (to_lowercase vv) = some (.Number m) →
      visit n startN st = .error er →
      visit_for_loop (n+1) (.String vv) startN stopN body st = .error er) := by
  refine ⟨fun h => ?_, fun s h => ?_, fun b h => ?_, fun m er h hstart => ?_⟩
  · simp only [visit_for_loop, visit_var, h]
  · simp only [visit_for_loop, visit_var, h]
  · simp only [visit_for_loop, visit_var, h]
  · simp only [visit_for_loop, visit_var, h, hstart]

/-- Witness for C2 (amended) on the empty table: the unbound loop
variable aborts the loop with the unwrap panic. -/
theorem c2_loop_var_validation_witness :
    visit_for_loop 6 (.String "i") (Node.Num (.Number 0)) (Node.Num (.Number 5))
      [Node.NoOp] (init_st []) = .error (.unwrapNone, init_st []) :=
  (c2_loop_var_validation 5 "i" (Node.Num (.Number 0)) (Node.Num (.Number 5))
    [Node.NoOp] (init_st [])).1 (by rfl)

/-- C4 (amended): a for-loop whose loop variable is integer-bound and
whose bounds evaluate to `s` and `e` runs its body once per value of
the value list of `s..e`, which is exactly the half-open range
`[s, e)` (of length `(e-s).toNat`); when the range is empty the state
is returned untouched (the variable keeps its prior value), and when
`s < e` *and the body leaves the loop variable's slot alone* the
variable ends bound to `e - 1` (the counterexample shows the body can
overwrite it). -/
theorem c4_for_loop_half_open_range (n : Nat) (vv : String) (startN stopN : Node)
    (body : List Node) (st₀ st₁ st₂ : St) (s e m₀ : Int)
    (hvar : st₀.global_scope.get (to_lowercase vv) = some (.Number m₀))
    (hs : visit n startN st₀ = .ok (.Number s, st₁))
    (he : visit n stopN st₁ = .ok (.Number e, st₂)) :
    visit_for_loop (n+1) (.String vv) startN stopN body st₀
      = loop_iter n (range_list s e) vv body st₂
    ∧ (∀ x, x ∈ range_list s e ↔ s ≤ x ∧ x < e)
    ∧ (range_list s e).length = (e - s).toNat
    ∧ (e ≤ s → visit_for_loop (n+1) (.String vv) startN stopN body st₀ = .ok ((), st₂))
    ∧ ((∀ (m : Nat) (stA stB : St), visit_list m body stA = .ok ((), stB) →
          stB.global_scope (to_lowercase vv) = stA.global_scope (to_lowercase vv)) →
        s < e → ∀ st', visit_for_loop (n+1) (.String vv) startN stopN body st₀ = .ok ((), st') →
          st'.global_scope (to_lowercase vv) = some (.Number (e - 1))) := by
  have h1 : visit_for_loop (n+1) (.String vv) startN stopN body st₀
      = loop_iter n (range_list s e) vv body st₂ := by
    simp only [visit_for_loop, visit_var, hvar, hs, he]
  refine ⟨h1, fun x => mem_range_list s e x, range_list_length s e, fun hle => ?_, ?_⟩
  · rw [h1, range_list_eq_nil s e hle, loop_iter_nil]
  · intro Hpres hlt st' hrun
    rw [h1] at hrun
    have := loop_iter_final_binding vv body Hpres (range_list s e) n st₂ st'
      (range_list_ne_nil s e hlt) hrun
    rw [range_list_getLastD s e hlt] at this
    exact this

/-- Witness for C4 (amended) at `s = 0`, `e = 3` with variable `i` bound
to `7`: the loop reduces to iteration over the range value list, and
`3` (the end bound) is not a member of that list. -/
theorem c4_for_loop_witness :
    visit_for_loop 6 (.String "i") (Node.Num (.Number 0)) (Node.Num (.Number 3)) [Node.NoOp]
        { global_scope := Table.insert empty_table "i" (.Number 7), stdin := [], stdout := [] }
      = loop_iter 5 (range_list 0 3) "i" [Node.NoOp]
        { global_scope := Table.insert empty_table "i" (.Number 7), stdin := [], stdout := [] }
    ∧ ((3 : Int) ∈ range_list 0 3 ↔ (0 : Int) ≤ 3 ∧ (3 : Int) < 3) := by
  have h := c4_for_loop_half_open_range 5 "i" (Node.Num (.Number 0)) (Node.Num (.Number 3))
    [Node.NoOp]
    { global_scope := Table.insert empty_table "i" (.Number 7), stdin := [], stdout := [] }
    { global_scope := Table.insert empty_table "i" (.Number 7), stdin := [], stdout := [] }
    { global_scope := Table.insert empty_table "i" (.Number 7), stdin := [], stdout := [] }
    0 3 7 (by rfl) (by rfl) (by rfl)
  exact ⟨h.1, h.2.1 3⟩

/-- C1 (amended): `statement_list` never returns an empty list (an empty
statement position parses to `NoOp`), so a for-loop is *never*
discarded by the parser: a successful `for_loop` parse always returns
a `ForLoop` node with a nonempty body; and evaluating the parsed loop
is ordinary loop processing — with the loop variable integer-bound and
`s < e`, the (source-empty, `[NoOp]`) body loop still rebinds the loop
variable, leaving it at `e - 1`. -/
theorem c1_for_loop_node_always_constructed : ∀ (n : Nat) (ps : PState),
    (match statement_list n ps with
     | .ok (l, _) => 0 < l.length
     | .error _ => True)
    ∧ (match for_loop n ps with
       | .ok (nd, _) => ∃ v s e b, nd = Node.ForLoop v s e b ∧ 0 < b.length
       | .error _ => True)
    ∧ (∀ (vv : String) (s e m₀ : Int) (st : St),
        st.global_scope.get (to_lowercase vv) = some (.Number m₀) → s < e →
        (match visit_for_loop (n+1) (.String vv) (Node.Num (.Number s)) (Node.Num (.Number e))
            [Node.NoOp] st with
         | .ok (_, st') => st'.global_scope (to_lowercase vv) = some (.Number (e - 1))
         | .error _ => True)) := by
  intro n ps
  refine ⟨?_, ?_, ?_⟩
  · cases hres : statement_list n ps with
    | error e => trivial
    | ok p =>
      obtain ⟨l, ps'⟩ := p
      exact statement_list_ne_nil n ps l ps' hres
  · cases n with
    | zero => simp [for_loop]
    | succ n =>
      cases hres : for_loop (n+1) ps with
      | error e => trivial
      | ok p =>
        obtain ⟨nd, psE⟩ := p
        simp only [for_loop] at hres
        cases h1 : eat .For ps with
        | error e => simp only [h1] at hres; simp at hres
        | ok ps1 =>
        simp only [h1] at hres
        cases h2 : variable_ ps1 with
        | error e => simp only [h2] at hres; simp at hres
        | ok p2 =>
        obtain ⟨var, ps2⟩ := p2
        simp only [h2] at hres
        cases h3 : eat .In ps2 with
        | error e => simp only [h3] at hres; simp at hres
        | ok ps3 =>
        simp only [h3] at hres
        cases h4 : expr n ps3 with
        | error e => simp only [h4] at hres; simp at hres
        | ok p4 =>
        obtain ⟨start, ps4⟩ := p4
        simp only [h4] at hres
        cases h5 : eat .To ps4 with
        | error e => simp only [h5] at hres; simp at hres
        | ok ps5 =>
        simp only [h5] at hres
        cases h6 : expr n ps5 with
        | error e => simp only [h6] at hres; simp at hres
        | ok p6 =>
        obtain ⟨stop, ps6⟩ := p6
        simp only [h6] at hres
        cases h7 : eat .Do ps6 with
        | error e => simp only [h7] at hres; simp at hres
        | ok ps7 =>
        simp only [h7] at hres
        cases h8 : statement_list n ps7 with
        | error e => simp only [h8] at hres; simp at hres
        | ok p8 =>
        obtain ⟨statements, ps8⟩ := p8
        simp only [h8] at hres
        cases h9 : eat .End ps8 with
        | error e => simp only [h9] at hres; simp at hres
        | ok ps9 =>
        simp only [h9] at hres
        cases h10 : eat .For ps9 with
        | error e => simp only [h10] at hres; simp at hres
        | ok ps10 =>
        simp only [h10, Except.ok.injEq, Prod.mk.injEq] at hres
        obtain ⟨hnd, -⟩ := hres
        have hpos := statement_list_ne_nil n ps7 statements ps8 h8
        cases statements with
        | nil => simp at hpos
        | cons a as =>
          refine ⟨var, start, stop, a :: as, ?_, by simp⟩
          rw [← hnd]
          simp [List.isEmpty]
  · intro vv s e m₀ st hv hlt
    cases n with
    | zero =>
      simp only [visit_for_loop, visit_var, hv, visit]
    | succ n =>
      have hs : visit (n+1) (Node.Num (.Number s)) st = .ok (.Number s, st) := rfl
      have he : visit (n+1) (Node.Num (.Number e)) st = .ok (.Number e, st) := rfl
      have h1 : visit_for_loop (n+1+1) (.String vv) (Node.Num (.Number s))
          (Node.Num (.Number e)) [Node.NoOp] st
          = loop_iter (n+1) (range_list s e) vv [Node.NoOp] st := by
        simp only [visit_for_loop, visit_var, hv, hs, he]
      rw [h1]
      cases hrun : loop_iter (n+1) (range_list s e) vv [Node.NoOp] st with
      | error p => trivial
      | ok p =>
        obtain ⟨u, st'⟩ := p
        have hpres : ∀ (m : Nat) (stA stB : St),
            visit_list m [Node.NoOp] stA = .ok ((), stB) →
            stB.global_scope (to_lowercase vv) = stA.global_scope (to_lowercase vv) := by
          intro m stA stB hh
          rw [visit_list_noop m stA stB hh]
        cases u
        have := loop_iter_final_binding vv [Node.NoOp] hpres (range_list s e) (n+1) st st'
          (range_list_ne_nil s e hlt) hrun
        rw [range_list_getLastD s e hlt] at this
        exact this

/-- Witness for C1 (amended): the loop with (source-empty) `[NoOp]` body
over `0 .. 5`, with `i` previously `0`, ends with `i ↦ 4`. -/
theorem c1_for_loop_witness :
    (match visit_for_loop 21 (.String "i") (Node.Num (.Number 0)) (Node.Num (.Number 5))
        [Node.NoOp]
        { global_scope := Table.insert empty_table "i" (.Number 0), stdin := [], stdout := [] } with
     | .ok (_, st') => st'.global_scope (to_lowercase "i") = some (.Number 4)
     | .error _ => True) :=
  (c1_for_loop_node_always_constructed 20
    ⟨⟨['x'], 0, some 'x'⟩, Token.mk .EOF .None⟩).2.2 "i" 0 5 0
    { global_scope := Table.insert empty_table "i" (.Number 0), stdin := [], stdout := [] }
    (by rfl) (by decide)

/-! ## Case-normalization invariant (for the global table) -/
theorem res_table_ok {α : Type} (x : α) (st : St) :
    res_table (Except.ok (x, st) : IRes α) = st.global_scope := rfl

theorem res_table_error {α : Type} (p : RtErr × St) :
    res_table (Except.error p : IRes α) = p.2.global_scope := rfl

theorem visit_num_res_table (v : Value) (st : St) :
    res_table (visit_num v st) = st.global_scope := by
  cases v <;> rfl

theorem visit_str_res_table (v : Value) (st : St) :
    res_table (visit_str v st) = st.global_scope := by
  cases v <;> rfl

theorem visit_print_str_res_table (v : Value) (st : St) :
    res_table (visit_print_str v st) = st.global_scope := by
  cases v <;> rfl

theorem visit_print_var_res_table (v : Value) (st : St) :
    res_table (visit_print_var v st) = st.global_scope := by
  cases v with
  | String s =>
    unfold visit_print_var visit_var
    cases h : st.global_scope.get (to_lowercase s) with
    | none => simp [res_table, h]
    | some w => cases w <;> simp [res_table, h]
  | Boolean b => rfl
  | Number m => rfl
  | Char c => rfl
  | None => rfl

theorem visit_var_decl_canon (v : Value) (ty : Token) (st : St)
    (h : canon_table st.global_scope) :
    canon_table (res_table (visit_var_decl v ty st)) := by
  cases v with
  | String s =>
    unfold visit_var_decl
    cases hty : ty.type_ <;>
      first
        | exact canon_table_insert h s _
        | exact h
  | Boolean b => exact h
  | Number m => exact h
  | Char c => exact h
  | None => exact h

theorem visit_read_canon (v : Value) (st : St) (h : canon_table st.global_scope) :
    canon_table (res_table (visit_read v st)) := by
  cases v with
  | String s =>
    simp only [visit_read]
    cases hg : st.global_scope.get (to_lowercase s) with
    | none => simp only [hg]; exact h
    | some w =>
      cases w with
      | String s2 => simp only [hg]; exact canon_table_insert h s _
      | Number m =>
        simp only [hg]
        split
        · exact canon_table_insert h s _
        · exact h
      | Boolean b => simp only [hg]; exact h
      | Char c => simp only [hg]; exact h
      | None => simp only [hg]; exact h
  | Boolean b => exact h
  | Number m => exact h
  | Char c => exact h
  | None => exact h

/-- If an evaluation step keeps the table canonical, so does knowing its
concrete outcome. -/
theorem canon_res_ok {α : Type} {r : IRes α} (hc : canon_table (res_table r))
    {x : α} {st' : St} (hr : r = .ok (x, st')) : canon_table st'.global_scope := by
  rw [hr] at hc
  exact hc

theorem canon_res_error {α : Type} {r : IRes α} (hc : canon_table (res_table r))
    {p : RtErr × St} (hr : r = .error p) : canon_table p.2.global_scope := by
  rw [hr] at hc
  exact hc

/-- Every evaluation step of the interpreter preserves the invariant that
all present table keys are in canonical (lower) case: the induction over
the mutual recursion of `visit`. -/
theorem canon_preservation : ∀ n : Nat,
    (∀ (nd : Node) (st : St), canon_table st.global_scope →
      canon_table (res_table (visit n nd st)))
    ∧ (∀ (l : List Node) (st : St), canon_table st.global_scope →
      canon_table (res_table (visit_list n l st)))
    ∧ (∀ (vals : List Int) (vn : String) (body : List Node) (st : St),
      canon_table st.global_scope → canon_table (res_table (loop_iter n vals vn body st)))
    ∧ (∀ (v : Value) (s e : Node) (body : List Node) (st : St),
      canon_table st.global_scope → canon_table (res_table (visit_for_loop n v s e body st)))
    ∧ (∀ (l : Node) (op : Token) (r : Node) (st : St), canon_table st.global_scope →
      canon_table (res_table (visit_bool_expr n l op r st)))
    ∧ (∀ (c : Node) (ts es : List Node) (st : St), canon_table st.global_scope →
      canon_table (res_table (visit_if_statement n c ts es st)))
    ∧ (∀ (l : Node) (op : Token) (r : Node) (st : St), canon_table st.global_scope →
      canon_table (res_table (visit_bin_op n l op r st)))
    ∧ (∀ (op : Token) (e : Node) (st : St), canon_table st.global_scope →
      canon_table (res_table (visit_unary_op n op e st)))
    ∧ (∀ (lv : Value) (op : Token) (r : Node) (st : St), canon_table st.global_scope →
      canon_table (res_table (visit_assign n lv op r st)))
    ∧ (∀ (lv : Value) (ty op : Token) (r : Node) (st : St), canon_table st.global_scope →
      canon_table (res_table (visit_decl_assign n lv ty op r st))) := by
  intro n
  induction n with
  | zero =>
    refine ⟨fun nd st h => h, fun l st h => ?_, fun vals vn body st h => ?_,
      fun v s e body st h => h, fun l op r st h => h, fun c ts es st h => h,
      fun l op r st h => h, fun op e st h => h, fun lv op r st h => h,
      fun lv ty op r st h => h⟩
    · cases l <;> exact h
    · cases vals <;> exact h
  | succ n ih =>
    obtain ⟨ihv, ihl, ihli, ihfl, ihbe, ihif, ihbo, ihuo, ihas, ihda⟩ := ih
    have wrap_list : ∀ (l : List Node) (st : St), canon_table st.global_scope →
        canon_table (res_table (visit_list (n+1) l st)) := by
      intro l st h
      cases l with
      | nil => exact h
      | cons x xs =>
        have hh := ihv x st h
        cases hr : visit n x st with
        | ok p =>
          obtain ⟨v, st'⟩ := p
          simp only [visit_list, hr]
          exact ihl xs st' (canon_res_ok hh hr)
        | error p =>
          simp only [visit_list, hr, res_table_error]
          exact canon_res_error hh hr
    have wrap_li : ∀ (vals : List Int) (vn : String) (body : List Node) (st : St),
        canon_table st.global_scope →
        canon_table (res_table (loop_iter (n+1) vals vn body st)) := by
      intro vals vn body st h
      cases vals with
      | nil => exact h
      | cons i is =>
        have h1 : canon_table ((st.global_scope.insert (to_lowercase vn) (.Number i))) :=
          canon_table_insert h vn _
        have hh := ihl body
          { st with global_scope := st.global_scope.insert (to_lowercase vn) (.Number i) } h1
        cases hr : visit_list n body
            { st with global_scope := st.global_scope.insert (to_lowercase vn) (.Number i) } with
        | ok p =>
          obtain ⟨u, st'⟩ := p
          simp only [loop_iter, hr]
          exact ihli is vn body st' (canon_res_ok hh hr)
        | error p =>
          simp only [loop_iter, hr, res_table_error]
          exact canon_res_error hh hr
    have wrap_fl : ∀ (v : Value) (s e : Node) (body : List Node) (st : St),
        canon_table st.global_scope →
        canon_table (res_table (visit_for_loop (n+1) v s e body st)) := by
      intro v s e body st h
      have hvr := visit_var_res_table v st
      cases hr : visit_var v st with
      | error p =>
        simp only [visit_for_loop, hr, res_table_error]
        rw [hr, res_table_error] at hvr
        rw [hvr]
        exact h
      | ok p =>
        obtain ⟨vv, stO⟩ := p
        rw [hr, res_table_ok] at hvr
        have h0 : canon_table stO.global_scope := by rw [hvr]; exact h
        simp only [visit_for_loop, hr]
        cases vv with
        | Number m =>
          cases v with
          | String var_name =>
            have hhs := ihv s stO h0
            cases hs : visit n s stO with
            | error p2 =>
              simp only [hs, res_table_error]
              exact canon_res_error hhs hs
            | ok p2 =>
              obtain ⟨sv, st1⟩ := p2
              have h1 := canon_res_ok hhs hs
              simp only [hs]
              cases sv with
              | Number sInt =>
                have hhe := ihv e st1 h1
                cases he : visit n e st1 with
                | error p3 =>
                  simp only [he, res_table_error]
                  exact canon_res_error hhe he
                | ok p3 =>
                  obtain ⟨ev, st2⟩ := p3
                  have h2 := canon_res_ok hhe he
                  simp only [he]
                  cases ev with
                  | Number eInt => exact ihli (range_list sInt eInt) var_name body st2 h2
                  | Boolean b => exact h2
                  | String s2 => exact h2
                  | Char c => exact h2
                  | None => exact h2
              | Boolean b => exact h1
              | String s2 => exact h1
              | Char c => exact h1
              | None => exact h1
          | Boolean b => exact h0
          | Number m2 => exact h0
          | Char c => exact h0
          | None => exact h0
        | String s2 => exact h0
        | Boolean b => exact h0
        | Char c => exact h0
        | None => exact h0
    have wrap_be : ∀ (l : Node) (op : Token) (r : Node) (st : St),
        canon_table st.global_scope →
        canon_table (res_table (visit_bool_expr (n+1) l op r st)) := by
      intro l op r st h
      simp only [visit_bool_expr]
      split
      · -- And
        have hhl := ihv l st h
        cases hl : visit n l st with
        | error p => simp only [hl, res_table_error]; exact canon_res_error hhl hl
        | ok p =>
          obtain ⟨lv, st1⟩ := p
          have h1 := canon_res_ok hhl hl
          simp only [hl]
          cases lv with
          | Boolean lb =>
            have hhr := ihv r st1 h1
            cases hr : visit n r st1 with
            | error p2 => simp only [hr, res_table_error]; exact canon_res_error hhr hr
            | ok p2 =>
              obtain ⟨rv, st2⟩ := p2
              have h2 := canon_res_ok hhr hr
              simp only [hr]
              cases rv <;> exact h2
          | Number m => exact h1
          | String s => exact h1
          | Char c => exact h1
          | None => exact h1
      · -- Semi
        have hhl := ihv l st h
        cases hl : visit n l st with
        | error p => simp only [hl, res_table_error]; exact canon_res_error hhl hl
        | ok p =>
          obtain ⟨lv, st1⟩ := p
          have h1 := canon_res_ok hhl hl
          simp only [hl]
          cases lv <;> exact h1
      · -- Not
        have hhr := ihv r st h
        cases hr : visit n r st with
        | error p => simp only [hr, res_table_error]; exact canon_res_error hhr hr
        | ok p =>
          obtain ⟨rv, st1⟩ := p
          have h1 := canon_res_ok hhr hr
          simp only [hr]
          cases rv <;> exact h1
      · -- comparisons
        have hhl := ihv l st h
        cases hl : visit n l st with
        | error p => simp only [hl, res_table_error]; exact canon_res_error hhl hl
        | ok p =>
          obtain ⟨lv, st1⟩ := p
          have h1 := canon_res_ok hhl hl
          simp only [hl]
          cases lv with
          | Number li =>
            have hhr := ihv r st1 h1
            cases hr : visit n r st1 with
            | error p2 => simp only [hr, res_table_error]; exact canon_res_error hhr hr
            | ok p2 =>
              obtain ⟨rv, st2⟩ := p2
              have h2 := canon_res_ok hhr hr
              simp only [hr]
              cases rv with
              | Number ri =>
                cases hop : op.type_ <;> exact h2
              | Boolean b => exact h2
              | String s => exact h2
              | Char c => exact h2
              | None => exact h2
          | Boolean b => exact h1
          | String s => exact h1
          | Char c => exact h1
          | None => exact h1
    have wrap_if : ∀ (c : Node) (ts es : List Node) (st : St),
        canon_table st.global_scope →
        canon_table (res_table (visit_if_statement (n+1) c ts es st)) := by
      intro c ts es st h
      have hhc := ihv c st h
      cases hc : visit n c st with
      | error p => simp only [visit_if_statement, hc, res_table_error]; exact canon_res_error hhc hc
      | ok p =>
        obtain ⟨cv, st1⟩ := p
        have h1 := canon_res_ok hhc hc
        simp only [visit_if_statement, hc]
        cases cv with
        | Boolean b =>
          cases b
          · simp only [Bool.false_eq_true, if_false]
            exact ihl es st1 h1
          · simp only [if_true]
            exact ihl ts st1 h1
        | Number m => exact h1
        | String s => exact h1
        | Char c2 => exact h1
        | None => exact h1
    have wrap_bo : ∀ (l : Node) (op : Token) (r : Node) (st : St),
        canon_table st.global_scope →
        canon_table (res_table (visit_bin_op (n+1) l op r st)) := by
      intro l op r st h
      have hhl := ihv l st h
      cases hl : visit n l st with
      | error p => simp only [visit_bin_op, hl, res_table_error]; exact canon_res_error hhl hl
      | ok p =>
        obtain ⟨lv, st1⟩ := p
        have h1 := canon_res_ok hhl hl
        have hhr := ihv r st1 h1
        cases hr : visit n r st1 with
        | error p2 => simp only [visit_bin_op, hl, hr, res_table_error]; exact canon_res_error hhr hr
        | ok p2 =>
          obtain ⟨rv, st2⟩ := p2
          have h2 := canon_res_ok hhr hr
          simp only [visit_bin_op, hl, hr]
          cases lv with
          | Number a =>
            cases rv with
            | Number b =>
              cases hop : op.type_ <;> (try dsimp only) <;>
                first | exact h2 | (split <;> exact h2)
            | Boolean b => exact h2
            | String s2 => exact h2
            | Char c => exact h2
            | None => exact h2
          | String a =>
            cases rv with
            | String b => cases hop : op.type_ <;> exact h2
            | Boolean b => exact h2
            | Number m => exact h2
            | Char c => exact h2
            | None => exact h2
          | Boolean b => cases rv <;> exact h2
          | Char c => cases rv <;> exact h2
          | None => cases rv <;> exact h2
    have wrap_uo : ∀ (op : Token) (e : Node) (st : St), canon_table st.global_scope →
        canon_table (res_table (visit_unary_op (n+1) op e st)) := by
      intro op e st h
      have hhe := ihv e st h
      cases he : visit n e st with
      | error p => simp only [visit_unary_op, he, res_table_error]; exact canon_res_error hhe he
      | ok p =>
        obtain ⟨v, st1⟩ := p
        have h1 := canon_res_ok hhe he
        simp only [visit_unary_op, he]
        cases v with
        | Number i => cases hop : op.type_ <;> exact h1
        | Boolean b => exact h1
        | String s => exact h1
        | Char c => exact h1
        | None => exact h1
    have wrap_as : ∀ (lv : Value) (op : Token) (r : Node) (st : St),
        canon_table st.global_scope →
        canon_table (res_table (visit_assign (n+1) lv op r st)) := by
      intro lv op r st h
      have hvr := visit_var_res_table lv st
      cases hl : visit_var lv st with
      | error p =>
        simp only [visit_assign, hl, res_table_error]
        rw [hl, res_table_error] at hvr
        rw [hvr]
        exact h
      | ok p =>
        obtain ⟨curv, stO⟩ := p
        rw [hl, res_table_ok] at hvr
        have h0 : canon_table stO.global_scope := by rw [hvr]; exact h
        have hhr := ihv r stO h0
        cases hr : visit n r stO with
        | error p2 => simp only [visit_assign, hl, hr, res_table_error]; exact canon_res_error hhr hr
        | ok p2 =>
          obtain ⟨rv, st2⟩ := p2
          have h2 := canon_res_ok hhr hr
          simp only [visit_assign, hl, hr]
          have hlv : canon_table (res_table
              (match lv with
               | .String s =>
                 (.ok ((), { st2 with
                   global_scope := st2.global_scope.insert (to_lowercase s) rv }) : IRes Unit)
               | _ => .error (.panicMsg "Error", st2))) := by
            cases lv with
            | String s => exact canon_table_insert h2 s _
            | Boolean b => exact h2
            | Number m => exact h2
            | Char c => exact h2
            | None => exact h2
          cases curv <;> cases rv <;> first | exact h2 | exact hlv
    have wrap_da : ∀ (lv : Value) (ty op : Token) (r : Node) (st : St),
        canon_table st.global_scope →
        canon_table (res_table (visit_decl_assign (n+1) lv ty op r st)) := by
      intro lv ty op r st h
      cases lv with
      | String s =>
        have hhr := ihv r st h
        cases hr : visit n r st with
        | error p =>
          simp only [visit_decl_assign, hr, res_table_error]
          exact canon_res_error hhr hr
        | ok p =>
          obtain ⟨rv, st1⟩ := p
          simp only [visit_decl_assign, hr]
          exact canon_table_insert (canon_res_ok hhr hr) s _
      | Boolean b => exact h
      | Number m => exact h
      | Char c => exact h
      | None => exact h
    refine ⟨?_, wrap_list, wrap_li, wrap_fl, wrap_be, wrap_if, wrap_bo, wrap_uo, wrap_as,
      wrap_da⟩
    intro nd st h
    cases nd with
    | BinOp l op r => exact ihbo l op r st h
    | UnaryOp op e =>
      have hh := ihuo op e st h
      cases hr : visit_unary_op n op e st with
      | ok p =>
        obtain ⟨i, st'⟩ := p
        simp only [visit, hr, res_table_ok]
        exact canon_res_ok hh hr
      | error p =>
        simp only [visit, hr, res_table_error]
        exact canon_res_error hh hr
    | Num v =>
      have hv := visit_num_res_table v st
      cases hr : visit_num v st with
      | ok p =>
        obtain ⟨i, st'⟩ := p
        rw [hr, res_table_ok] at hv
        simp only [visit, hr, res_table_ok]
        rw [hv]
        exact h
      | error p =>
        rw [hr, res_table_error] at hv
        simp only [visit, hr, res_table_error]
        rw [hv]
        exact h
    | Str v =>
      have hv := visit_str_res_table v st
      cases hr : visit_str v st with
      | ok p =>
        obtain ⟨sv, st'⟩ := p
        rw [hr, res_table_ok] at hv
        simp only [visit, hr, res_table_ok]
        rw [hv]
        exact h
      | error p =>
        rw [hr, res_table_error] at hv
        simp only [visit, hr, res_table_error]
        rw [hv]
        exact h
    | NoOp => exact h
    | BoolExpr l op r =>
      have hh := ihbe l op r st h
      cases hr : visit_bool_expr n l op r st with
      | ok p =>
        obtain ⟨b, st'⟩ := p
        simp only [visit, hr, res_table_ok]
        exact canon_res_ok hh hr
      | error p =>
        simp only [visit, hr, res_table_error]
        exact canon_res_error hh hr
    | ForLoop v s e body =>
      have hh := ihfl v s e body st h
      cases hr : visit_for_loop n v s e body st with
      | ok p =>
        obtain ⟨u, st'⟩ := p
        simp only [visit, hr, res_table_ok]
        exact canon_res_ok hh hr
      | error p =>
        simp only [visit, hr, res_table_error]
        exact canon_res_error hh hr
    | IfStatement c ts es =>
      have hh := ihif c ts es st h
      cases hr : visit_if_statement n c ts es st with
      | ok p =>
        obtain ⟨u, st'⟩ := p
        simp only [visit, hr, res_table_ok]
        exact canon_res_ok hh hr
      | error p =>
        simp only [visit, hr, res_table_error]
        exact canon_res_error hh hr
    | Assign lv op r =>
      have hh := ihas lv op r st h
      cases hr : visit_assign n lv op r st with
      | ok p =>
        obtain ⟨u, st'⟩ := p
        simp only [visit, hr, res_table_ok]
        exact canon_res_ok hh hr
      | error p =>
        simp only [visit, hr, res_table_error]
        exact canon_res_error hh hr
    | Var v =>
      have hv := visit_var_res_table v st
      cases hr : visit_var v st with
      | ok p =>
        obtain ⟨w, st'⟩ := p
        rw [hr, res_table_ok] at hv
        simp only [visit, hr, res_table_ok]
        rw [hv]
        exact h
      | error p =>
        rw [hr, res_table_error] at hv
        simp only [visit, hr, res_table_error]
        rw [hv]
        exact h
    | Program children =>
      have hh := ihl children st h
      cases hr : visit_list n children st with
      | ok p =>
        obtain ⟨u, st'⟩ := p
        simp only [visit, hr, res_table_ok]
        exact canon_res_ok hh hr
      | error p =>
        simp only [visit, hr, res_table_error]
        exact canon_res_error hh hr
    | VarDecl v ty =>
      have hh := visit_var_decl_canon v ty st h
      cases hr : visit_var_decl v ty st with
      | ok p =>
        obtain ⟨u, st'⟩ := p
        simp only [visit, hr, res_table_ok]
        exact canon_res_ok hh hr
      | error p =>
        simp only [visit, hr, res_table_error]
        exact canon_res_error hh hr
    | DeclAssign lv ty op r =>
      have hh := ihda lv ty op r st h
      cases hr : visit_decl_assign n lv ty op r st with
      | ok p =>
        obtain ⟨u, st'⟩ := p
        simp only [visit, hr, res_table_ok]
        exact canon_res_ok hh hr
      | error p =>
        simp only [visit, hr, res_table_error]
        exact canon_res_error hh hr
    | PrintStr v =>
      have hv := visit_print_str_res_table v st
      cases hr : visit_print_str v st with
      | ok p =>
        obtain ⟨u, st'⟩ := p
        rw [hr, res_table_ok] at hv
        simp only [visit, hr, res_table_ok]
        rw [hv]
        exact h
      | error p =>
        rw [hr, res_table_error] at hv
        simp only [visit, hr, res_table_error]
        rw [hv]
        exact h
    | PrintVar v =>
      have hv := visit_print_var_res_table v st
      cases hr : visit_print_var v st with
      | ok p =>
        obtain ⟨u, st'⟩ := p
        rw [hr, res_table_ok] at hv
        simp only [visit, hr, res_table_ok]
        rw [hv]
        exact h
      | error p =>
        rw [hr, res_table_error] at hv
        simp only [visit, hr, res_table_error]
        rw [hv]
        exact h
    | Read v =>
      have hh := visit_read_canon v st h
      cases hr : visit_read v st with
      | ok p =>
        obtain ⟨u, st'⟩ := p
        simp only [visit, hr, res_table_ok]
        exact canon_res_ok hh hr
      | error p =>
        simp only [visit, hr, res_table_error]
        exact canon_res_error hh hr

/-- C8: every table write and lookup in the evaluator case-normalizes the
variable name first, so (a) for any source program, every key ever
present in the final global table (also at the moment of a fatal
error) is in canonical lower case, and (b) `Count` and `count` refer
to the same storage slot: assigning through either name, or reading
through either name, is the same operation. -/
theorem c8_variable_names_case_normalized :
    ∀ (n : Nat) (src : String) (stdin : List String),
    canon_table (final_table (interpret n src stdin))
    ∧ (∀ (m : Nat) (tok : Token) (rhs : Node) (st : St),
        visit m (.Assign (.String "Count") tok rhs) st
          = visit m (.Assign (.String "count") tok rhs) st)
    ∧ (∀ (m : Nat) (st : St),
        visit m (.Var (.String "Count")) st = visit m (.Var (.String "count")) st) := by
  intro n src stdin
  refine ⟨?_, ?_, ?_⟩
  · unfold interpret
    split
    · exact canon_table_empty
    · split
      · exact canon_table_empty
      · split
        · exact canon_table_empty
        · rename Node => tree
          have hc := (canon_preservation n).1 tree (init_st stdin) canon_table_empty
          cases hv : visit n tree (init_st stdin) with
          | ok q =>
            obtain ⟨v, st⟩ := q
            exact canon_res_ok hc hv
          | error q =>
            exact canon_res_error hc hv
  · intro m tok rhs st
    rcases m with _ | _ | m <;> rfl
  · intro m st
    cases m <;> rfl

/-- Witness for C8 at a concrete run: the key under which `i` is stored
after a concrete program is its own lowercase form. -/
theorem c8_witness : to_lowercase "i" = "i" :=
  (c8_variable_names_case_normalized 100 "var i : int; for i in 0 .. 5 do end for" []).1
    "i" (.Number 4) (by rfl)

/-- Witness for C5 at a concrete declaration: `var Count : int;` leaves
slot `count` at the integer default `0`. -/
theorem c5_var_decl_witness :
    res_table (visit_var_decl (.String "Count") (Token.mk .Integer .None) (init_st [])) "count"
      = some (.Number 0) := by
  rw [(c5_var_decl_default_values "Count" .None .None .None (init_st []) "count").1]
  decide
